import Mathlib

/-!
# Verification of the anime-stats-tracker filtering and sampling core

Shallow embedding of the client-side filtering/aggregation engine and the
catalog loader of the repository (src/app.js, src/random.js, src/data_cn.js),
together with proofs settling the specification claims.

Conventions of the embedding:
* JavaScript numbers carrying ratings are modelled as `Option ℚ`
  (`none` = field absent/null/undefined).  `NaN` is not modelled.
* JS truthiness of a numeric score (`!anime.score`) is `none` or `some 0`.
* A JS `Set` of selected genres is modelled as a `List String`; only
  emptiness tests and element iteration are performed on it in the source.
* A record field that may be missing (`anime.genres`, `anime.is_japanese`)
  is an `Option`.
-/

/-- Season-annotated anime record, as consumed by the filter engine.
Fields kept are exactly those the filter/sampler/genre code reads. -/
structure Anime where
  title : String
  score : Option ℚ
  is_hentai : Bool
  is_japanese : Option Bool
  genres : Option (List String)
  year : Int
  season : String
  deriving Repr, DecidableEq

/-- Genre-combination mode (`filterMode` global: `'OR'` / `'AND'`). -/
inductive FilterMode where
  | OR : FilterMode
  | AND : FilterMode
  deriving Repr, DecidableEq

/-- The page-level filter state consumed by `filterAnime` and the samplers:
`showHentai`, `hideNotRated`, `japaneseOnly`, `selectedGenres`, `filterMode`,
and the random-picker rating slider value (`ratingFilter`). -/
structure FilterConfig where
  showHentai : Bool
  hideNotRated : Bool
  japaneseOnly : Bool
  selectedGenres : List String
  filterMode : FilterMode
  minRating : ℚ
  deriving Repr, DecidableEq

/-- JS truthiness of `anime.score`: `!anime.score` is true when the field is
absent (`undefined`/`null`) or equal to `0`. -/
def scoreTruthy (a : Anime) : Bool :=
  match a.score with
  | none => false
  | some q => decide (q ≠ 0)

/-- The genre test of `filterAnime` (src/app.js lines 562–582):
`animeGenres = anime.genres || []`, then `some`/`every` of the selected
genres over `animeGenres.includes`. -/
def genrePass (mode : FilterMode) (sel : List String) (a : Anime) : Bool :=
  let animeGenres := a.genres.getD []
  match mode with
  | .OR => sel.any (fun g => animeGenres.contains g)
  | .AND => sel.all (fun g => animeGenres.contains g)

/-- The record predicate of `filterAnime` (src/app.js lines 541–586),
mirroring its early-return structure. -/
def filterPass (cfg : FilterConfig) (a : Anime) : Bool :=
  if !cfg.showHentai && a.is_hentai then false
  else if cfg.hideNotRated && !scoreTruthy a then false
  else if cfg.japaneseOnly && (a.is_japanese == some false) then false
  else if cfg.selectedGenres.length > 0 then genrePass cfg.filterMode cfg.selectedGenres a
  else true

/-- The function `filterAnime(animeList)` of src/app.js: `animeList.filter(...)`. -/
def filterAnime (animeList : List Anime) (cfg : FilterConfig) : List Anime :=
  animeList.filter (filterPass cfg)

/-- The filter predicate as the specification words it, conditions written as
disjunctions; condition (2) reads the rating-presence test literally:
"the record's rating is present". -/
def specFilterPass (cfg : FilterConfig) (a : Anime) : Bool :=
  (cfg.showHentai || !a.is_hentai) &&
  (!cfg.hideNotRated || a.score.isSome) &&
  (!cfg.japaneseOnly || !(a.is_japanese == some false)) &&
  (decide (cfg.selectedGenres = []) || genrePass cfg.filterMode cfg.selectedGenres a)

/-- The filter predicate as the amended claim words it: like `specFilterPass`
but condition (2) requires the rating to be present *and nonzero*, matching
the truthiness test of the source. -/
def amendedFilterPass (cfg : FilterConfig) (a : Anime) : Bool :=
  (cfg.showHentai || !a.is_hentai) &&
  (!cfg.hideNotRated || (a.score.isSome && decide (a.score ≠ some 0))) &&
  (!cfg.japaneseOnly || !(a.is_japanese == some false)) &&
  (decide (cfg.selectedGenres = []) || genrePass cfg.filterMode cfg.selectedGenres a)

/-- Rating presence as tested by the localized random picker
(src/data_cn.js line 1460): `typeof anime.score === 'number'`.  A present
score of `0` *does* count as rated here, unlike `scoreTruthy`. -/
def hasScoreCn (a : Anime) : Bool := a.score.isSome

/-- The first four conditions of the localized picker's eligibility predicate
(src/data_cn.js lines 1459–1499), mirroring its early-return structure. -/
def cnPass4 (cfg : FilterConfig) (a : Anime) : Bool :=
  if !cfg.showHentai && a.is_hentai then false
  else if cfg.hideNotRated && !hasScoreCn a then false
  else if cfg.japaneseOnly && (a.is_japanese == some false) then false
  else if cfg.selectedGenres.length > 0 then genrePass cfg.filterMode cfg.selectedGenres a
  else true

/-- The fifth, sampler-only rating-threshold condition of the localized
picker (src/data_cn.js lines 1500–1510):
`if (!hasScore && ratingFilter > 0) return false;`
`if (hasScore && scoreValue < ratingFilter) return false;`. -/
def cnRatingPass (minRating : ℚ) (a : Anime) : Bool :=
  let hasScore := hasScoreCn a
  let scoreValue := (a.score).getD 0
  if !hasScore && decide (minRating > 0) then false
  else if hasScore && decide (scoreValue < minRating) then false
  else true

/-- Full eligibility predicate of the localized picker. -/
def cnEligible (cfg : FilterConfig) (a : Anime) : Bool :=
  cnPass4 cfg a && cnRatingPass cfg.minRating a

/-- The eligibility predicate of `getRandomAnime` in src/random.js
(lines 179–187): only the genre test, always in OR shape
(`!anime.genres || !anime.genres.some(g => selectedGenres.has(g))`). -/
def rjPass (sel : List String) (a : Anime) : Bool :=
  if sel.length > 0 then
    match a.genres with
    | none => false
    | some ag => ag.any (fun g => sel.contains g)
  else true

/-- Model of `Math.floor(r * n)` for a random draw `r` and population size `n`. -/
def sampleIndex (r : ℚ) (n : ℕ) : ℕ := (⌊r * (n : ℚ)⌋).toNat

/-- The function `getRandomAnime` of src/random.js (lines 173–195) with the random draw
passed explicitly: filter, return `null` on empty, else index by
`Math.floor(random * length)`. -/
def getRandomAnimeRj (animeList : List Anime) (sel : List String) (r : ℚ) :
    Option Anime :=
  let filteredAnime := animeList.filter (rjPass sel)
  if filteredAnime.length = 0 then none
  else filteredAnime[sampleIndex r filteredAnime.length]?

/-- The function `getRandomAnime` of src/data_cn.js (lines 1439–1545) with the random
draw passed explicitly: filter by the five conditions, show the no-result
card (here `none`) on empty, else index by `Math.floor(random * length)`. -/
def getRandomAnimeCn (animeList : List Anime) (cfg : FilterConfig) (r : ℚ) :
    Option Anime :=
  let filtered := animeList.filter (cnEligible cfg)
  if filtered.length = 0 then none
  else filtered[sampleIndex r filtered.length]?

/-! ## Catalog loader (`loadAllAnimeData`, identical in src/random.js
lines 32–72 and src/data_cn.js lines 1211–1251) -/

/-- A raw stored anime record, as found in a partition file: the same
fields as `Anime` minus the partition keys `year`/`season`, which the
loader injects. -/
structure RawAnime where
  title : String
  score : Option ℚ
  is_hentai : Bool
  is_japanese : Option Bool
  genres : Option (List String)
  deriving Repr, DecidableEq

/-- One manifest entry: `{year, season, count}`. -/
structure ManifestEntry where
  year : Int
  season : String
  count : Nat
  deriving Repr, DecidableEq

/-- Outcome of one partition fetch: a parsed record list, a non-success
HTTP response (`!response.ok`), or a thrown network error. -/
inductive FetchOutcome where
  | ok : List RawAnime → FetchOutcome
  | httpError : FetchOutcome
  | netError : FetchOutcome
  deriving Repr, DecidableEq

/-- The fetch environment: what fetching each partition resource yields. -/
def FetchEnv : Type := ManifestEntry → FetchOutcome

/-- The spread `{...anime, year: item.year, season: item.season}`: copy every stored
field, then set the partition keys. -/
def annotate (year : Int) (season : String) (a : RawAnime) : Anime :=
  { title := a.title, score := a.score, is_hentai := a.is_hentai,
    is_japanese := a.is_japanese, genres := a.genres,
    year := year, season := season }

/-- The per-partition fetch of `loadAllAnimeData` (src/random.js lines
47–61): `!response.ok` and a thrown error both yield `[]`; success maps
each record through the year/season annotation. -/
def fetchPart (env : FetchEnv) (item : ManifestEntry) : List Anime :=
  match env item with
  | .ok seasonData => seasonData.map (annotate item.year item.season)
  | .httpError => []
  | .netError => []

/-- Whether the partition fetch failed (either failure mode). -/
def fetchFailed (env : FetchEnv) (item : ManifestEntry) : Bool :=
  match env item with
  | .ok _ => false
  | .httpError => true
  | .netError => true

/-- The merged load result: `(await Promise.all(allAnimePromises)).flat()`,
with `Promise.all` ordering results by manifest position. -/
def loadMerge (env : FetchEnv) (manifest : List ManifestEntry) : List Anime :=
  (manifest.map (fetchPart env)).flatten

/-- The per-partition promises paired with their manifest position,
starting from position `k`. -/
def indexedFetchesFrom (env : FetchEnv) (k : Nat) :
    List ManifestEntry → List (Nat × List Anime)
  | [] => []
  | item :: rest => (k, fetchPart env item) :: indexedFetchesFrom env (k + 1) rest

/-- The per-partition promises, indexed by their manifest position
(`manifest.map(async (item) => ...)` before `Promise.all`). -/
def indexedFetches (env : FetchEnv) (manifest : List ManifestEntry) :
    List (Nat × List Anime) :=
  indexedFetchesFrom env 0 manifest

/-- Reassembly performed by `Promise.all`: given the list of completion events (an
index paired with that promise's value, in arrival order), rebuild the
results array by position and flatten it. -/
def assemble (n : Nat) (events : List (Nat × List Anime)) : List Anime :=
  ((List.range n).map (fun i => (events.lookup i).getD [])).flatten

/-- The module-level cache state of `loadAllAnimeData`: the `allAnimeCache`
array and the in-flight `allAnimePromise` (modelled by the value the
pending operation will produce). -/
structure LoaderState where
  allAnimeCache : List Anime
  allAnimePromise : Option (List Anime)
  deriving Repr, DecidableEq

/-- The state before any load: empty cache, no in-flight promise. -/
def initLoaderState : LoaderState := ⟨[], none⟩

/-- The synchronous prefix of one `loadAllAnimeData` call, up to the point
where the caller suspends: returns the value the caller will receive, the
updated module state, and the number of partition fetches this call fires.
Mirrors the cache hit, the in-flight-promise hit, the empty-manifest early
return, and the initiation path that stores `allAnimePromise` and fires one
fetch per manifest entry. -/
def loadCallStep (manifest : List ManifestEntry) (env : FetchEnv)
    (st : LoaderState) : List Anime × LoaderState × Nat :=
  if st.allAnimeCache.length > 0 then (st.allAnimeCache, st, 0)
  else
    match st.allAnimePromise with
    | some pending => (pending, st, 0)
    | none =>
        if manifest.length = 0 then ([], st, 0)
        else
          let result := loadMerge env manifest
          (result, { st with allAnimePromise := some result }, manifest.length)

/-- Completion of the in-flight operation: `allAnimeCache` is assigned the
flattened result and the `finally` block clears `allAnimePromise`. -/
def loadCompleteStep (st : LoaderState) : LoaderState :=
  match st.allAnimePromise with
  | some result => ⟨result, none⟩
  | none => st

/-! ## Genre corpus derivation (`loadGenres`, src/random.js lines 77–104) -/

/-- One update `genreCounts.set(genre, (genreCounts.get(genre) || 0) + 1)` on a JS
`Map`: an existing key keeps its position, a new key is appended. -/
def bump : List (String × Nat) → String → List (String × Nat)
  | [], g => [(g, 1)]
  | (k, v) :: rest, g =>
      if k = g then (k, v + 1) :: rest else (k, v) :: bump rest g

/-- The genre-count map built by `loadGenres`: every genre of every record,
skipping falsy genre strings and the reserved `'Hentai'` value. -/
def countGenres (animeList : List Anime) : List (String × Nat) :=
  animeList.foldl
    (fun acc a =>
      match a.genres with
      | some gs =>
          gs.foldl
            (fun acc g =>
              if g ≠ "" ∧ g ≠ "Hentai" then bump acc g else acc) acc
      | none => acc)
    []

/-- The frequency of one genre in the count map (`0` when absent). -/
def countOf (animeList : List Anime) (g : String) : Nat :=
  ((countGenres animeList).lookup g).getD 0

/-- The list `allGenres` as computed by `loadGenres`: sort the count entries by
count descending (stable), take the top 30, keep the names, sort
alphabetically. -/
def allGenresOf (animeList : List Anime) : List String :=
  ((((countGenres animeList).mergeSort
        (fun a b => decide (b.2 ≤ a.2))).take 30).map
      Prod.fst).mergeSort (fun a b => decide (a ≤ b))

/-! ## Concrete inputs used by counterexamples and witnesses -/

/-- A record whose score field is present but equal to `0`, safe on every
other axis (not adult, explicitly Japanese, no genres needed). -/
def zeroScoreAnime : Anime :=
  ⟨"Zero", some 0, false, some true, some [], 2024, "winter"⟩

/-- A configuration with only the hide-unrated toggle on. -/
def hideUnratedCfg : FilterConfig := ⟨false, true, false, [], .OR, 0⟩

/-- An adult-content record, rated and explicitly Japanese. -/
def hentaiAnime : Anime :=
  ⟨"H", some 7, true, some true, some ["Action"], 2024, "winter"⟩

/-- The all-defaults configuration of the season browser: every toggle off,
no genres selected. -/
def defaultCfg : FilterConfig := ⟨false, false, false, [], .OR, 0⟩

/-- A rated, safe, explicitly-Japanese record with one genre. -/
def ratedAnime : Anime :=
  ⟨"R", some 7, false, some true, some ["Action"], 2024, "winter"⟩

/-- An unrated, safe, explicitly-Japanese record with one genre. -/
def unratedAnime : Anime :=
  ⟨"U", none, false, some true, some ["Action"], 2024, "winter"⟩

/-- One manifest entry. -/
def entry0 : ManifestEntry := ⟨2024, "winter", 1⟩

/-- A second manifest entry. -/
def entry1 : ManifestEntry := ⟨2024, "spring", 1⟩

/-- A raw partition record. -/
def rawA : RawAnime := ⟨"A", none, false, none, some ["Action"]⟩

/-- A second raw partition record. -/
def rawB : RawAnime := ⟨"B", none, false, none, some ["Comedy"]⟩

/-- A fetch environment in which every partition fetch throws. -/
def envFail : FetchEnv := fun _ => .netError

/-- A fetch environment in which every partition fetch succeeds with one
record. -/
def envOk : FetchEnv := fun _ => .ok [rawA]

/-- A fetch environment distinguishing the two partitions above. -/
def envTwo : FetchEnv :=
  fun item => if item.season = "winter" then .ok [rawA] else .ok [rawB]

/-- Thirty-one distinct single-character genre names, in insertion order. -/
def genres31 : List String :=
  ["A", "B", "C", "D", "E", "F", "G", "H", "I", "J", "K", "L", "M",
   "N", "O", "P", "Q", "R", "S", "T", "U", "V", "W", "X", "Y", "Z",
   "a", "b", "c", "d", "e"]

/-- A record carrying the thirty-one genres above. -/
def anime31 : Anime := ⟨"Many", none, false, none, some genres31, 2024, "winter"⟩

/-! ## Helper lemmas -/

/-- Truthiness of the score field, rewritten as presence-and-nonzero. -/
theorem scoreTruthy_eq (a : Anime) :
    scoreTruthy a = (a.score.isSome && decide (a.score ≠ some 0)) := by
  rcases a with ⟨t, sc, ih, ij, gs, y, se⟩
  rcases sc with _ | q
  · simp [scoreTruthy]
  · by_cases hq : q = 0 <;> simp [scoreTruthy, hq]

/-- The early-return predicate of the season browser coincides with the
conjunction-of-conditions form whose rating test is presence-and-nonzero. -/
theorem filterPass_eq_amendedFilterPass (cfg : FilterConfig) (a : Anime) :
    filterPass cfg a = amendedFilterPass cfg a := by
  rcases cfg with ⟨sh, hn, jo, sel, mode, mr⟩
  simp only [filterPass, amendedFilterPass]
  rw [← scoreTruthy_eq]
  cases sh <;> cases hn <;> cases jo <;>
    cases hih : a.is_hentai <;>
    cases hij : (a.is_japanese == some false) <;>
    cases hst : scoreTruthy a <;>
    rcases sel with _ | ⟨g, rest⟩ <;>
    simp [hih, hij, hst]

/-- Genre intersection emptiness is symmetric in the two lists. -/
theorem any_contains_comm (xs ys : List String) :
    xs.any (fun g => ys.contains g) = ys.any (fun g => xs.contains g) := by
  apply Bool.coe_iff_coe.mp
  simp only [List.any_eq_true, List.elem_iff]
  exact ⟨fun ⟨g, h1, h2⟩ => ⟨g, h2, h1⟩, fun ⟨g, h1, h2⟩ => ⟨g, h2, h1⟩⟩

/-! ## Claim C1 -/

/-- C1, counterexample: a record whose score is present but `0` satisfies
all four conditions as the claim words them (in particular condition (2),
"the rating is present"), yet `filterAnime` drops it under
`hideNotRated = true`. So `filter` is not exactly the subsequence of
records satisfying the claim's four conditions. -/
theorem C1_counterexample :
    specFilterPass hideUnratedCfg zeroScoreAnime = true ∧
    filterAnime [zeroScoreAnime] hideUnratedCfg = [] := by
  constructor
  · simp [specFilterPass, hideUnratedCfg, zeroScoreAnime]
  · simp [filterAnime, filterPass, scoreTruthy, hideUnratedCfg, zeroScoreAnime]

/-- C1, amended: `filterAnime` returns exactly the order-preserving
subsequence of its input whose records satisfy the four conditions, with
condition (2) amended to "the rating is present and nonzero" (the source
tests JS truthiness of the score). -/
theorem C1_filter_characterization (animeList : List Anime) (cfg : FilterConfig) :
    filterAnime animeList cfg = animeList.filter (amendedFilterPass cfg) ∧
    (filterAnime animeList cfg).Sublist animeList ∧
    (∀ a : Anime, filterPass cfg a = amendedFilterPass cfg a) := by
  refine ⟨?_, ?_, fun a => filterPass_eq_amendedFilterPass cfg a⟩
  · unfold filterAnime
    exact List.filter_congr (fun a _ => filterPass_eq_amendedFilterPass cfg a)
  · exact List.filter_sublist animeList

/-! ## Claim C10 -/

/-- C10: a record whose score field is present but equal to `0` is treated
as unrated by the season browser: with `hideNotRated = true` the predicate
rejects it and it never appears in the filtered output, because the
rating-presence check is a truthiness test. -/
theorem C10_zero_score_treated_unrated (animeList : List Anime)
    (cfg : FilterConfig) (a : Anime)
    (hs : a.score = some 0) (hh : cfg.hideNotRated = true) :
    filterPass cfg a = false ∧ a ∉ filterAnime animeList cfg := by
  have hst : scoreTruthy a = false := by rw [scoreTruthy_eq, hs]; simp
  have hp : filterPass cfg a = false := by
    unfold filterPass
    rw [hst, hh]
    cases (!cfg.showHentai && a.is_hentai) <;> simp
  refine ⟨hp, fun hm => ?_⟩
  rw [filterAnime, List.mem_filter] at hm
  rw [hp] at hm
  exact absurd hm.2 (by simp)

/-- C10, witness at a concrete record and configuration. -/
theorem C10_witness :
    filterPass hideUnratedCfg zeroScoreAnime = false ∧
    zeroScoreAnime ∉ filterAnime [zeroScoreAnime] hideUnratedCfg :=
  C10_zero_score_treated_unrated [zeroScoreAnime] hideUnratedCfg zeroScoreAnime
    rfl rfl

/-- The random.js picker predicate is the OR-mode genre test alone. -/
theorem rjPass_eq (sel : List String) (a : Anime) :
    rjPass sel a = (if sel.length > 0 then genrePass .OR sel a else true) := by
  unfold rjPass genrePass
  rcases hgs : a.genres with _ | ag
  · rcases sel with _ | ⟨g, rest⟩ <;> simp
  · rcases sel with _ | ⟨g, rest⟩
    · simp
    · simp only [hgs, Option.getD_some, List.length_cons, gt_iff_lt,
        Nat.zero_lt_succ, if_true]
      apply Bool.coe_iff_coe.mp
      simp only [List.any_eq_true, List.elem_iff, List.contains_cons,
        Bool.or_eq_true, beq_iff_eq, List.mem_cons]
      constructor
      · rintro ⟨x, hx, h⟩
        exact ⟨x, h, hx⟩
      · rintro ⟨x, h, hx⟩
        exact ⟨x, hx, h⟩

/-! ## Claim C2 -/

/-- C2, counterexample: the samplers' eligibility predicates do not equal
the filter's predicate. The localized picker accepts a present-but-zero
score that the filter rejects under hide-unrated, and the random.js picker
accepts an adult-content record that the filter rejects. -/
theorem C2_counterexample :
    (cnPass4 hideUnratedCfg zeroScoreAnime = true ∧
      filterPass hideUnratedCfg zeroScoreAnime = false) ∧
    (rjPass [] hentaiAnime = true ∧
      filterPass defaultCfg hentaiAnime = false) := by
  refine ⟨⟨?_, ?_⟩, ?_, ?_⟩
  · simp [cnPass4, hasScoreCn, hideUnratedCfg, zeroScoreAnime]
  · simp [filterPass, scoreTruthy, hideUnratedCfg, zeroScoreAnime]
  · rfl
  · simp [filterPass, defaultCfg, hentaiAnime]

/-- C2, amended: the localized picker's pre-threshold eligibility predicate
equals the filter's predicate on every record whose score is not a present
zero, and the random.js picker's predicate equals the filter's predicate
under the configuration with every non-genre filter disabled and OR mode. -/
theorem C2_sampler_filter_agreement (cfg : FilterConfig) (a : Anime)
    (sel : List String) :
    (a.score ≠ some 0 → cnPass4 cfg a = filterPass cfg a) ∧
    rjPass sel a = filterPass ⟨true, false, false, sel, .OR, 0⟩ a := by
  constructor
  · intro h
    have hsc : hasScoreCn a = scoreTruthy a := by
      rw [scoreTruthy_eq, hasScoreCn]
      simp [h]
    unfold cnPass4 filterPass
    rw [hsc]
  · rw [rjPass_eq]
    unfold filterPass
    simp

/-- C2, witness at a concrete record, configuration and selection. -/
theorem C2_witness :
    cnPass4 defaultCfg ratedAnime = filterPass defaultCfg ratedAnime ∧
    rjPass [] ratedAnime = filterPass ⟨true, false, false, [], .OR, 0⟩ ratedAnime :=
  ⟨(C2_sampler_filter_agreement defaultCfg ratedAnime []).1 (by simp [ratedAnime]),
   (C2_sampler_filter_agreement defaultCfg ratedAnime []).2⟩

/-! ## Claim C3 -/

/-- C3: for a nonnegative threshold, the sampler-only rating condition
holds exactly when the score is absent and the threshold is zero, or the
score is present and at least the threshold; in particular any positive
threshold excludes unrated records. -/
theorem C3_rating_threshold (a : Anime) (m : ℚ) (hm : 0 ≤ m) :
    (cnRatingPass m a = true ↔
      ((a.score = none ∧ m = 0) ∨ (∃ q, a.score = some q ∧ m ≤ q))) ∧
    (0 < m → a.score = none → cnRatingPass m a = false) := by
  rcases a with ⟨t, sc, ih, ij, gs, y, se⟩
  rcases sc with _ | q
  · by_cases h : 0 < m
    · have hne : m ≠ 0 := ne_of_gt h
      constructor
      · simp [cnRatingPass, hasScoreCn, h, hne]
      · intro _ _
        simp [cnRatingPass, hasScoreCn, h]
    · have h0 : m = 0 := le_antisymm (not_lt.mp h) hm
      constructor
      · simp [cnRatingPass, hasScoreCn, h, h0]
      · intro hlt
        exact absurd hlt h
  · by_cases h : q < m
    · have hnle : ¬ m ≤ q := not_le.mpr h
      constructor
      · simp [cnRatingPass, hasScoreCn, h, hnle]
      · intro _ hc
        exact absurd hc (by simp)
    · have hle : m ≤ q := not_lt.mp h
      constructor
      · simp [cnRatingPass, hasScoreCn, h, hle]
      · intro _ hc
        exact absurd hc (by simp)

/-- C3, witness at a concrete record and threshold. -/
theorem C3_witness :
    (0 : ℚ) ≤ 0 ∧ cnRatingPass 0 unratedAnime = true :=
  ⟨le_refl 0,
   ((C3_rating_threshold unratedAnime 0 (le_refl 0)).1).mpr (Or.inl ⟨rfl, rfl⟩)⟩

/-! ## Claim C9 -/

/-- C9: when zero records qualify, both samplers return the no-result
sentinel and the filter returns the empty list; all three operations are
total functions, so no error is possible. -/
theorem C9_empty_result (animeList : List Anime) (cfg : FilterConfig)
    (sel : List String) (r : ℚ) :
    ((∀ a ∈ animeList, cnEligible cfg a = false) →
        getRandomAnimeCn animeList cfg r = none) ∧
    ((∀ a ∈ animeList, rjPass sel a = false) →
        getRandomAnimeRj animeList sel r = none) ∧
    ((∀ a ∈ animeList, filterPass cfg a = false) →
        filterAnime animeList cfg = []) := by
  refine ⟨fun h => ?_, fun h => ?_, fun h => ?_⟩
  · have hf : animeList.filter (cnEligible cfg) = [] := by
      rw [List.filter_eq_nil_iff]
      intro a ha
      simp [h a ha]
    simp [getRandomAnimeCn, hf]
  · have hf : animeList.filter (rjPass sel) = [] := by
      rw [List.filter_eq_nil_iff]
      intro a ha
      simp [h a ha]
    simp [getRandomAnimeRj, hf]
  · rw [filterAnime, List.filter_eq_nil_iff]
    intro a ha
    simp [h a ha]

/-- C9, witness at a concrete record list and configuration under which
nothing qualifies. -/
theorem C9_witness :
    getRandomAnimeCn [hentaiAnime] hideUnratedCfg 0 = none ∧
    getRandomAnimeRj [hentaiAnime] ["Horror"] 0 = none ∧
    filterAnime [hentaiAnime] hideUnratedCfg = [] := by
  have h := C9_empty_result [hentaiAnime] hideUnratedCfg ["Horror"] 0
  refine ⟨h.1 ?_, h.2.1 ?_, h.2.2 ?_⟩
  · intro a ha
    rw [List.mem_singleton] at ha
    subst ha
    simp [cnEligible, cnPass4, hideUnratedCfg, hentaiAnime]
  · intro a ha
    rw [List.mem_singleton] at ha
    subst ha
    simp [rjPass, hentaiAnime]
  · intro a ha
    rw [List.mem_singleton] at ha
    subst ha
    simp [filterPass, hideUnratedCfg, hentaiAnime]

/-! ## Claim C4 -/

/-- C4: with the random draw r in [0,1) supplied as an input, the picker
returns the qualifying record at index floor(r * N); the index equals i
exactly when r lies in the interval [i/N, (i+1)/N), and every such interval
has width 1/N, so each of the N qualifying records is drawn with
probability 1/N under a uniform draw. -/
theorem C4_uniform_sampling (animeList : List Anime) (sel : List String) (r : ℚ)
    (h0 : 0 ≤ r) (h1 : r < 1)
    (hne : animeList.filter (rjPass sel) ≠ []) :
    ∃ h : sampleIndex r (animeList.filter (rjPass sel)).length <
        (animeList.filter (rjPass sel)).length,
      getRandomAnimeRj animeList sel r
          = some ((animeList.filter (rjPass sel)).get
              ⟨sampleIndex r (animeList.filter (rjPass sel)).length, h⟩) ∧
      (∀ i : ℕ, i < (animeList.filter (rjPass sel)).length →
        (sampleIndex r (animeList.filter (rjPass sel)).length = i ↔
          (i : ℚ) / ((animeList.filter (rjPass sel)).length : ℚ) ≤ r ∧
            r < ((i : ℚ) + 1) / ((animeList.filter (rjPass sel)).length : ℚ))) ∧
      (∀ i : ℕ,
        ((i : ℚ) + 1) / ((animeList.filter (rjPass sel)).length : ℚ) -
            (i : ℚ) / ((animeList.filter (rjPass sel)).length : ℚ)
          = 1 / ((animeList.filter (rjPass sel)).length : ℚ)) := by
  set f := animeList.filter (rjPass sel) with hf
  set N := f.length with hN
  have hNpos : 0 < N := List.length_pos.mpr hne
  have hNQ : (0 : ℚ) < (N : ℚ) := by exact_mod_cast hNpos
  have hfl0 : 0 ≤ ⌊r * (N : ℚ)⌋ :=
    Int.floor_nonneg.mpr (mul_nonneg h0 (le_of_lt hNQ))
  have hflN : ⌊r * (N : ℚ)⌋ < (N : ℤ) := by
    rw [Int.floor_lt]
    push_cast
    calc r * (N : ℚ) < 1 * (N : ℚ) := by
          exact mul_lt_mul_of_pos_right h1 hNQ
      _ = (N : ℚ) := one_mul _
  have hidx : sampleIndex r N < N := by
    unfold sampleIndex
    omega
  refine ⟨hidx, ?_, ?_, ?_⟩
  · unfold getRandomAnimeRj
    rw [← hf, if_neg (by omega)]
    exact List.getElem?_eq_getElem hidx
  · intro i hi
    have hfloor : sampleIndex r N = i ↔ ⌊r * (N : ℚ)⌋ = (i : ℤ) := by
      unfold sampleIndex
      omega
    rw [hfloor, Int.floor_eq_iff]
    constructor
    · rintro ⟨hlo, hhi⟩
      constructor
      · rw [div_le_iff₀ hNQ]
        exact_mod_cast hlo
      · rw [lt_div_iff₀ hNQ]
        push_cast at hhi ⊢
        linarith
    · rintro ⟨hlo, hhi⟩
      rw [div_le_iff₀ hNQ] at hlo
      rw [lt_div_iff₀ hNQ] at hhi
      constructor
      · exact_mod_cast hlo
      · push_cast
        linarith
  · intro i
    rw [div_sub_div_same]
    norm_num

/-- C4, witness at a concrete list and draw. -/
theorem C4_witness :
    (0 : ℚ) ≤ 0 ∧ (0 : ℚ) < 1 ∧ ([ratedAnime].filter (rjPass []) ≠ []) ∧
    (∃ h : sampleIndex 0 ([ratedAnime].filter (rjPass [])).length <
        ([ratedAnime].filter (rjPass [])).length,
      getRandomAnimeRj [ratedAnime] [] 0
        = some (([ratedAnime].filter (rjPass [])).get
            ⟨sampleIndex 0 ([ratedAnime].filter (rjPass [])).length, h⟩)) := by
  have hne : [ratedAnime].filter (rjPass []) ≠ [] := by simp [rjPass]
  obtain ⟨h, heq, -, -⟩ :=
    C4_uniform_sampling [ratedAnime] [] 0 (le_refl 0) zero_lt_one hne
  exact ⟨le_refl 0, zero_lt_one, hne, ⟨h, heq⟩⟩

/-- A failed partition fetch contributes no records. -/
theorem fetchPart_of_failed (env : FetchEnv) (item : ManifestEntry)
    (h : fetchFailed env item = true) : fetchPart env item = [] := by
  unfold fetchPart
  unfold fetchFailed at h
  rcases henv : env item with data | _ | _
  · rw [henv] at h
    simp at h
  · rfl
  · rfl

/-- One-step unfolding of the merged load result. -/
theorem loadMerge_cons (env : FetchEnv) (e : ManifestEntry)
    (rest : List ManifestEntry) :
    loadMerge env (e :: rest) = fetchPart env e ++ loadMerge env rest := by
  simp [loadMerge]

/-! ## Claim C8 -/

/-- C8: a partition whose fetch fails (HTTP error or thrown network error)
contributes zero records, and the merged load result equals the merge over
the successfully fetched partitions alone; the loader is a total function,
so the failure is never surfaced as an overall load failure. -/
theorem C8_partition_failure (env : FetchEnv) (manifest : List ManifestEntry)
    (item : ManifestEntry) :
    (fetchFailed env item = true → fetchPart env item = []) ∧
    loadMerge env manifest
      = loadMerge env (manifest.filter (fun it => !fetchFailed env it)) := by
  refine ⟨fetchPart_of_failed env item, ?_⟩
  induction manifest with
  | nil => rfl
  | cons e rest ih =>
    rw [loadMerge_cons, List.filter_cons]
    cases hf : fetchFailed env e
    · simp only [Bool.not_false, if_pos]
      rw [loadMerge_cons, ih]
    · rw [fetchPart_of_failed env e hf, List.nil_append, ih]
      simp

/-- C8, witness at a concrete manifest whose only partition fails. -/
theorem C8_witness :
    fetchPart envFail entry0 = [] ∧
    loadMerge envFail [entry0]
      = loadMerge envFail ([entry0].filter (fun it => !fetchFailed envFail it)) :=
  ⟨(C8_partition_failure envFail [entry0] entry0).1 rfl,
   (C8_partition_failure envFail [entry0] entry0).2⟩

/-- Position-lookup into the indexed fetch list. -/
theorem lookup_indexedFetchesFrom (env : FetchEnv) :
    ∀ (manifest : List ManifestEntry) (k i : ℕ) (h : i < manifest.length),
      (indexedFetchesFrom env k manifest).lookup (k + i)
        = some (fetchPart env (manifest.get ⟨i, h⟩)) := by
  intro manifest
  induction manifest with
  | nil =>
    intro k i h
    simp at h
  | cons e rest ih =>
    intro k i h
    cases i with
    | zero =>
      rw [Nat.add_zero, indexedFetchesFrom, List.lookup]
      simp
    | succ j =>
      have hkey : (k + (j + 1) == k) = false := by
        simp
      have hj : j < rest.length := by
        simpa using h
      have hrec := ih (k + 1) j hj
      rw [indexedFetchesFrom, List.lookup, hkey,
        show k + (j + 1) = (k + 1) + j by omega, hrec]
      simp

/-- The keys of the indexed fetch list are consecutive positions. -/
theorem keys_indexedFetchesFrom (env : FetchEnv) :
    ∀ (manifest : List ManifestEntry) (k : ℕ),
      (indexedFetchesFrom env k manifest).map Prod.fst
        = List.range' k manifest.length := by
  intro manifest
  induction manifest with
  | nil =>
    intro k
    rfl
  | cons e rest ih =>
    intro k
    rw [indexedFetchesFrom, List.map_cons, ih (k + 1)]
    rfl

/-- Association-list lookup is invariant under permutation when the keys
are distinct. -/
theorem lookup_perm_of_nodupkeys {β : Type} {l₁ l₂ : List (ℕ × β)}
    (hp : l₁.Perm l₂) :
    (l₂.map Prod.fst).Nodup → ∀ k : ℕ, l₁.lookup k = l₂.lookup k := by
  induction hp with
  | nil =>
    intro _ k
    rfl
  | cons x h ih =>
    intro hn k
    rw [List.map_cons] at hn
    rw [List.lookup, List.lookup]
    cases hkx : k == x.1
    · exact ih (List.Nodup.of_cons hn) k
    · rfl
  | swap x y l =>
    intro hn k
    rw [List.map_cons, List.map_cons] at hn
    have hx_ne : x.1 ≠ y.1 := by
      intro he
      exact (List.nodup_cons.mp hn).1 (he ▸ List.mem_cons_self _ _)
    rw [List.lookup, List.lookup, List.lookup, List.lookup]
    cases hkx : k == x.1 <;> cases hky : k == y.1 <;> try rfl
    rw [beq_iff_eq] at hkx hky
    exact absurd (hkx.symm.trans hky) hx_ne
  | trans h1 h2 ih1 ih2 =>
    intro hn k
    have hmid := ((List.Perm.map Prod.fst h2).nodup_iff).mpr hn
    rw [ih1 hmid k, ih2 hn k]

/-- Reassembling the per-partition results from completion events in any
arrival order yields the manifest-ordered merge. -/
theorem assemble_eq_loadMerge (env : FetchEnv) (manifest : List ManifestEntry)
    (events : List (ℕ × List Anime))
    (hp : events.Perm (indexedFetches env manifest)) :
    assemble manifest.length events = loadMerge env manifest := by
  have hkeys : ((indexedFetches env manifest).map Prod.fst).Nodup := by
    rw [indexedFetches, keys_indexedFetchesFrom]
    exact List.nodup_range' _ _
  have hlk := lookup_perm_of_nodupkeys hp hkeys
  unfold assemble loadMerge
  congr 1
  apply List.ext_getElem
  · simp
  · intro i h1 h2
    have hi : i < manifest.length := by simpa using h2
    have hfind := lookup_indexedFetchesFrom env manifest 0 i hi
    rw [Nat.zero_add] at hfind
    simp only [List.getElem_map, List.getElem_range]
    rw [hlk i, indexedFetches, hfind]
    simp

/-! ## Claim C7 -/

/-- C7: every record contributed by a partition carries that partition's
year and season (a successful fetch maps its records through the
annotation); reassembling the per-partition results from their completion
events in any arrival order yields the same result as manifest order, and
the merge concatenates partitions in manifest order, preserving each
partition's internal order. -/
theorem C7_partition_merge (env : FetchEnv) (manifest : List ManifestEntry) :
    (∀ events : List (ℕ × List Anime),
        events.Perm (indexedFetches env manifest) →
          assemble manifest.length events = loadMerge env manifest) ∧
    (∀ (item : ManifestEntry) (data : List RawAnime), env item = .ok data →
        fetchPart env item = data.map (annotate item.year item.season)) ∧
    (∀ item : ManifestEntry, ∀ a ∈ fetchPart env item,
        a.year = item.year ∧ a.season = item.season) ∧
    (∀ m₁ m₂ : List ManifestEntry,
        loadMerge env (m₁ ++ m₂) = loadMerge env m₁ ++ loadMerge env m₂) := by
  refine ⟨fun events hp => assemble_eq_loadMerge env manifest events hp,
    fun item data h => by rw [fetchPart, h], fun item a ha => ?_,
    fun m₁ m₂ => by simp [loadMerge]⟩
  rw [fetchPart] at ha
  rcases henv : env item with data | _ | _ <;> rw [henv] at ha
  · have ha' : a ∈ data.map (annotate item.year item.season) := ha
    rw [List.mem_map] at ha'
    obtain ⟨raw, _, rfl⟩ := ha'
    exact ⟨rfl, rfl⟩
  · exact absurd ha (List.not_mem_nil a)
  · exact absurd ha (List.not_mem_nil a)

/-- C7, witness: two partitions whose completion events arrive in reversed
order still assemble to the manifest-ordered merge. -/
theorem C7_witness :
    ([(1, fetchPart envTwo entry1), (0, fetchPart envTwo entry0)].Perm
        (indexedFetches envTwo [entry0, entry1])) ∧
    assemble 2 [(1, fetchPart envTwo entry1), (0, fetchPart envTwo entry0)]
      = loadMerge envTwo [entry0, entry1] := by
  have hp : ([(1, fetchPart envTwo entry1), (0, fetchPart envTwo entry0)].Perm
      (indexedFetches envTwo [entry0, entry1])) := by
    show ([(1, fetchPart envTwo entry1), (0, fetchPart envTwo entry0)].Perm
      [(0, fetchPart envTwo entry0), (1, fetchPart envTwo entry1)])
    exact List.Perm.swap (0, fetchPart envTwo entry0)
      (1, fetchPart envTwo entry1) []
  exact ⟨hp, (C7_partition_merge envTwo [entry0, entry1]).1 _ hp⟩

/-! ## Claim C5 -/

/-- C5, counterexample: a load over a one-partition manifest whose fetch
fails completes with zero records; the completion leaves the module state
identical to the initial state (empty cache, no pending promise), so a
subsequent call fires the partition fetch again — the claimed
"no re-fetch after a completed load" does not hold. -/
theorem C5_counterexample :
    (loadCallStep [entry0] envFail initLoaderState).2.2 = 1 ∧
    loadCompleteStep (loadCallStep [entry0] envFail initLoaderState).2.1
      = initLoaderState ∧
    (loadCallStep [entry0] envFail
        (loadCompleteStep
          (loadCallStep [entry0] envFail initLoaderState).2.1)).2.2 = 1 := by
  refine ⟨rfl, rfl, rfl⟩

/-- C5, amended: a second call arriving while a load is in flight attaches
to the pending operation and fires no fetch, so two concurrent calls fire
exactly one fetch per partition and receive the same result; any call
finding a non-empty cache returns it unchanged with no fetch; and after a
load completes with a non-empty result, the cache holds that result and the
next call returns it with no fetch. A load completing empty leaves the
cache unpopulated and a later call re-fetches. -/
theorem C5_caching (manifest : List ManifestEntry) (env : FetchEnv) :
    ((loadCallStep manifest env initLoaderState).2.2
        + (loadCallStep manifest env
            (loadCallStep manifest env initLoaderState).2.1).2.2
      = manifest.length) ∧
    ((loadCallStep manifest env
        (loadCallStep manifest env initLoaderState).2.1).1
      = (loadCallStep manifest env initLoaderState).1) ∧
    (∀ st : LoaderState, st.allAnimeCache ≠ [] →
      loadCallStep manifest env st = (st.allAnimeCache, st, 0)) ∧
    ((loadCallStep manifest env initLoaderState).1 ≠ [] →
      loadCallStep manifest env
          (loadCompleteStep (loadCallStep manifest env initLoaderState).2.1)
        = ((loadCallStep manifest env initLoaderState).1,
            loadCompleteStep (loadCallStep manifest env initLoaderState).2.1,
            0)) := by
  have hcache : ∀ st : LoaderState, st.allAnimeCache ≠ [] →
      loadCallStep manifest env st = (st.allAnimeCache, st, 0) := by
    intro st hne
    unfold loadCallStep
    rw [if_pos (List.length_pos.mpr hne)]
  rcases manifest with _ | ⟨e, rest⟩
  · refine ⟨rfl, rfl, fun st hne => hcache st hne, fun hne => absurd rfl hne⟩
  · have h1 : loadCallStep (e :: rest) env initLoaderState
        = (loadMerge env (e :: rest),
            ⟨[], some (loadMerge env (e :: rest))⟩, (e :: rest).length) := by
      unfold loadCallStep initLoaderState
      simp
    have h2 : loadCallStep (e :: rest) env
          ⟨[], some (loadMerge env (e :: rest))⟩
        = (loadMerge env (e :: rest),
            ⟨[], some (loadMerge env (e :: rest))⟩, 0) := by
      unfold loadCallStep
      simp
    refine ⟨?_, ?_, fun st hne => hcache st hne, fun hne => ?_⟩
    · rw [h1, h2]
      simp
    · rw [h1, h2]
    · rw [h1] at hne ⊢
      have hcomp : loadCompleteStep ⟨[], some (loadMerge env (e :: rest))⟩
          = ⟨loadMerge env (e :: rest), none⟩ := rfl
      rw [hcomp]
      exact hcache ⟨loadMerge env (e :: rest), none⟩ (by simpa using hne)

/-- C5, witness at a concrete one-partition manifest whose fetch
succeeds. -/
theorem C5_witness :
    (loadCallStep [entry0] envOk initLoaderState).1 ≠ [] ∧
    ((loadCallStep [entry0] envOk initLoaderState).2.2
        + (loadCallStep [entry0] envOk
            (loadCallStep [entry0] envOk initLoaderState).2.1).2.2
      = 1) ∧
    (loadCallStep [entry0] envOk
        (loadCompleteStep (loadCallStep [entry0] envOk initLoaderState).2.1))
      = ((loadCallStep [entry0] envOk initLoaderState).1,
          loadCompleteStep (loadCallStep [entry0] envOk initLoaderState).2.1,
          0) := by
  have h := C5_caching [entry0] envOk
  have hne : (loadCallStep [entry0] envOk initLoaderState).1 ≠ [] := by
    intro hc
    simp [loadCallStep, initLoaderState, loadMerge, fetchPart, envOk] at hc
  exact ⟨hne, h.1, h.2.2.2 hne⟩

/-- Keys after a bump: the bumped key is appended if absent, nothing else
changes. -/
theorem keys_bump (acc : List (String × Nat)) (g : String) :
    (bump acc g).map Prod.fst
      = if g ∈ acc.map Prod.fst then acc.map Prod.fst
        else acc.map Prod.fst ++ [g] := by
  induction acc with
  | nil => simp [bump]
  | cons p rest ih =>
    rcases p with ⟨k', v'⟩
    by_cases hk : k' = g
    · subst hk
      rw [bump, if_pos rfl]
      simp
    · rw [bump, if_neg hk, List.map_cons, ih, List.map_cons]
      by_cases hg : g ∈ rest.map Prod.fst
      · rw [if_pos hg, if_pos (by simp [hg])]
      · rw [if_neg hg, if_neg ?hne]
        case hne =>
          rw [List.mem_cons]
          rintro (h | h)
          · exact hk h.symm
          · exact hg h
        simp

/-- Bumping preserves distinctness of the keys. -/
theorem nodup_keys_bump (acc : List (String × Nat)) (g : String)
    (h : (acc.map Prod.fst).Nodup) : ((bump acc g).map Prod.fst).Nodup := by
  rw [keys_bump]
  by_cases hg : g ∈ acc.map Prod.fst
  · rw [if_pos hg]
    exact h
  · rw [if_neg hg]
    rw [List.nodup_append]
    exact ⟨h, List.nodup_singleton g,
      fun x hx => by
        rw [List.mem_singleton]
        intro he
        exact hg (he ▸ hx)⟩

/-- Fold preservation principle. -/
theorem foldl_preserve {α β : Type} (P : β → Prop) (f : β → α → β)
    (hf : ∀ b a, P b → P (f b a)) :
    ∀ (l : List α) (b : β), P b → P (l.foldl f b) := by
  intro l
  induction l with
  | nil =>
    intro b h
    exact h
  | cons x xs ih =>
    intro b h
    exact ih (f b x) (hf b x h)

/-- The genre-count map has distinct keys, and neither the reserved
adult-content value nor the empty string is among them. -/
theorem countGenres_keys (animeList : List Anime) :
    ((countGenres animeList).map Prod.fst).Nodup ∧
    "Hentai" ∉ (countGenres animeList).map Prod.fst := by
  have step2 : ∀ (acc : List (String × Nat)) (g : String),
      ((acc.map Prod.fst).Nodup ∧ "Hentai" ∉ acc.map Prod.fst) →
      ((((if g ≠ "" ∧ g ≠ "Hentai" then bump acc g else acc) : List (String × Nat)).map Prod.fst).Nodup ∧
        "Hentai" ∉ ((if g ≠ "" ∧ g ≠ "Hentai" then bump acc g else acc) : List (String × Nat)).map Prod.fst) := by
    intro acc g h
    by_cases hc : g ≠ "" ∧ g ≠ "Hentai"
    · rw [if_pos hc]
      refine ⟨nodup_keys_bump acc g h.1, ?_⟩
      rw [keys_bump]
      by_cases hg : g ∈ acc.map Prod.fst
      · rw [if_pos hg]
        exact h.2
      · rw [if_neg hg, List.mem_append]
        rintro (hm | hm)
        · exact h.2 hm
        · rw [List.mem_singleton] at hm
          exact hc.2 hm.symm
    · rw [if_neg hc]
      exact h
  have main := foldl_preserve
    (fun acc : List (String × Nat) =>
      (acc.map Prod.fst).Nodup ∧ "Hentai" ∉ acc.map Prod.fst)
    (fun acc a =>
      match a.genres with
      | some gs =>
          gs.foldl (fun acc g =>
            if g ≠ "" ∧ g ≠ "Hentai" then bump acc g else acc) acc
      | none => acc)
    (fun acc a h => by
      rcases hg : a.genres with _ | gs
      · simpa [hg] using h
      · simpa [hg] using foldl_preserve _ _ step2 gs acc h)
    animeList [] ⟨List.nodup_nil, by simp⟩
  exact main

/-- Lookup finds the value of a present key when the keys are distinct. -/
theorem lookup_eq_of_mem_nodup {β : Type} :
    ∀ (l : List (String × β)) (k : String) (v : β),
      (k, v) ∈ l → (l.map Prod.fst).Nodup → l.lookup k = some v := by
  intro l
  induction l with
  | nil =>
    intro k v h _
    simp at h
  | cons p rest ih =>
    intro k v h hn
    rcases p with ⟨k₁, v₁⟩
    rw [List.map_cons, List.nodup_cons] at hn
    rw [List.mem_cons] at h
    rcases h with h | h
    · rw [Prod.mk.injEq] at h
      rw [List.lookup, h.1, h.2]
      simp
    · have hne : (k == k₁) = false := by
        rw [beq_eq_false_iff_ne]
        intro he
        have hmem : k ∈ rest.map Prod.fst := List.mem_map_of_mem Prod.fst h
        rw [he] at hmem
        exact hn.1 hmem
      rw [List.lookup, hne]
      exact ih k v h hn.2

/-- The count-descending sort is pairwise count-descending. -/
theorem sorted_desc (entries : List (String × Nat)) :
    (entries.mergeSort (fun a b => decide (b.2 ≤ a.2))).Pairwise
      (fun a b => b.2 ≤ a.2) := by
  have h := @List.sorted_mergeSort (String × Nat)
    (fun a b => decide (b.2 ≤ a.2))
    (fun a b c h1 h2 => by
      simp only [decide_eq_true_eq] at h1 h2 ⊢
      exact le_trans h2 h1)
    (fun a b => by
      rcases Nat.le_total b.2 a.2 with h | h <;> simp [h])
    entries
  exact h.imp (fun hab => by simpa using hab)

/-! ## Claim C6 -/

/-- C6: the derived genre list is alphabetically sorted, duplicate-free,
never contains the reserved adult-content genre value, has at most 30
entries, contains only genres occurring in the records, and its membership
is frequency-determined: a counted genre left out means the list is full at
30 and every member's frequency is at least the left-out genre's frequency
(equivalently, any genre strictly more frequent than the 30th kept genre is
included regardless of alphabetical position). -/
theorem C6_genre_corpus (animeList : List Anime) :
    (allGenresOf animeList).Sorted (· ≤ ·) ∧
    (allGenresOf animeList).Nodup ∧
    "Hentai" ∉ allGenresOf animeList ∧
    (allGenresOf animeList).length ≤ 30 ∧
    (∀ g ∈ allGenresOf animeList, g ∈ (countGenres animeList).map Prod.fst) ∧
    (∀ g : String, g ∈ (countGenres animeList).map Prod.fst →
        g ∉ allGenresOf animeList →
        (allGenresOf animeList).length = 30 ∧
        ∀ x ∈ allGenresOf animeList, countOf animeList g ≤ countOf animeList x) := by
  have hkeys := countGenres_keys animeList
  set s := (countGenres animeList).mergeSort (fun a b => decide (b.2 ≤ a.2))
    with hs
  set names := (s.take 30).map Prod.fst with hnames
  have hres : allGenresOf animeList
      = names.mergeSort (fun a b => decide (a ≤ b)) := rfl
  have hperm_s : s.Perm (countGenres animeList) := List.mergeSort_perm _ _
  have hkeys_s : (s.map Prod.fst).Perm ((countGenres animeList).map Prod.fst) :=
    hperm_s.map Prod.fst
  have hnodup_keys_s : (s.map Prod.fst).Nodup :=
    (hkeys_s.nodup_iff).mpr hkeys.1
  have hperm_res : (allGenresOf animeList).Perm names := by
    rw [hres]
    exact List.mergeSort_perm _ _
  have hnames_eq : names = (s.map Prod.fst).take 30 := by
    rw [hnames, List.map_take]
  have hnodup_names : names.Nodup := by
    rw [hnames_eq]
    exact List.Nodup.sublist (List.take_sublist 30 _) hnodup_keys_s
  have hmem_names : ∀ g ∈ names, g ∈ (countGenres animeList).map Prod.fst := by
    intro g hg
    rw [hnames_eq] at hg
    exact (hkeys_s.mem_iff).mp (List.mem_of_mem_take hg)
  have hmem_res : ∀ g ∈ allGenresOf animeList,
      g ∈ (countGenres animeList).map Prod.fst := by
    intro g hg
    exact hmem_names g ((hperm_res.mem_iff).mp hg)
  refine ⟨?_, ?_, ?_, ?_, hmem_res, ?_⟩
  · rw [hres]
    exact List.sorted_mergeSort' names
  · exact (hperm_res.nodup_iff).mpr hnodup_names
  · intro hmem
    exact hkeys.2 (hmem_res "Hentai" hmem)
  · rw [hperm_res.length_eq, hnames, List.length_map]
    exact List.length_take_le 30 s
  · intro g hgk hgnot
    obtain ⟨p, hp, hpfst⟩ := List.mem_map.mp hgk
    rcases p with ⟨pk, c⟩
    simp only at hpfst
    subst hpfst
    have hcount_g : countOf animeList pk = c := by
      rw [countOf, lookup_eq_of_mem_nodup _ _ _ hp hkeys.1]
      rfl
    have hps : (pk, c) ∈ s := (hperm_s.mem_iff).mpr hp
    have hsplit : s.take 30 ++ s.drop 30 = s := List.take_append_drop 30 s
    have hdrop : (pk, c) ∈ s.drop 30 := by
      rcases List.mem_append.mp (by rw [hsplit]; exact hps) with h | h
      · exact absurd ((hperm_res.mem_iff).mpr
          (hnames ▸ List.mem_map_of_mem Prod.fst h)) hgnot
      · exact h
    have hlen : 30 < s.length := by
      by_contra hle
      rw [List.drop_eq_nil_iff.mpr (not_lt.mp hle)] at hdrop
      exact absurd hdrop (List.not_mem_nil _)
    have hsorted := sorted_desc (countGenres animeList)
    rw [← hs] at hsorted
    rw [← hsplit] at hsorted
    have hrel := (List.pairwise_append.mp hsorted).2.2
    constructor
    · rw [hperm_res.length_eq, hnames, List.length_map, List.length_take]
      exact min_eq_left (le_of_lt hlen)
    · intro x hx
      obtain ⟨q, hq, hqfst⟩ :=
        List.mem_map.mp ((hperm_res.mem_iff).mp hx)
      rcases q with ⟨qk, qv⟩
      simp only at hqfst
      subst hqfst
      have hcount_x : countOf animeList qk = qv := by
        rw [countOf, lookup_eq_of_mem_nodup _ _ _
          ((hperm_s.mem_iff).mp (List.mem_of_mem_take hq)) hkeys.1]
        rfl
      have := hrel (qk, qv) hq (pk, c) hdrop
      rw [hcount_g, hcount_x]
      exact this

unseal String.ltb List.merge List.mergeSort in
/-- C6, witness: a record with 31 distinct genres; the genre inserted last
among the all-tied counts is dropped, the list is full at 30, and every
kept genre's count is at least the dropped genre's count. -/
theorem C6_witness :
    ("e" ∈ (countGenres [anime31]).map Prod.fst) ∧
    ("e" ∉ allGenresOf [anime31]) ∧
    (allGenresOf [anime31]).length = 30 ∧
    (∀ x ∈ allGenresOf [anime31],
      countOf [anime31] "e" ≤ countOf [anime31] x) := by
  have hmem : "e" ∈ (countGenres [anime31]).map Prod.fst := by decide
  have hnot : "e" ∉ allGenresOf [anime31] := by decide
  have h := (C6_genre_corpus [anime31]).2.2.2.2.2 "e" hmem hnot
  exact ⟨hmem, hnot, h.1, h.2⟩
